import Mathlib

/-!
Verification of the `tlsign` signing pipeline (src/main.rs) against its
natural-language specification.

The program builds a detached JSON Web Signature over a request body using
the ES512 algorithm (ECDSA over P-521 with SHA-512):
* `base64_encode` embeds the Rust `base64_encode` helper
  (`base64::encode_config(payload, URL_SAFE_NO_PAD)`), the unpadded URL-safe
  base64 encoder of RFC 7515 section 2.
* `sign_es512` embeds the Rust `sign_es512`: the curve check against
  `Nid::SECP521R1`, the SHA-512 hash, the call into OpenSSL's
  `EcdsaSig::sign`, the fixed-width serialization of the two scalars, and
  the base64url encoding of the result.  The SHA-512 digest and the keyed
  ECDSA signing primitive live in OpenSSL, outside this repository, so they
  enter the embedding as explicit function parameters (`sha512`) and as a
  field of the key value (`EcKey.ecdsaSig`).  The crypto calls the function
  performs are recorded in an explicit trace so that "no cryptographic
  operation happens before the curve check" is a provable statement.
* `get_jws` embeds the Rust `get_jws`, and `main_detached` embeds the part
  of `main` that splits the compact JWS on `'.'` and re-joins
  `parts[0] + ".." + parts[2]`.

Machine integers are modelled as `Nat`; a byte string is a `List Nat`.
Rust `usize` subtraction (`66 - r.len()`), which panics on underflow, is
modelled by `checkedSub`, with `SignOutcome.crash` marking the abnormal
termination.
-/

namespace Tlsign

/-- The 64-character URL-safe base64 alphabet (RFC 7515 section 2):
`A`-`Z`, `a`-`z`, `0`-`9`, `-`, `_`. -/
def b64Alphabet : List Char :=
  "ABCDEFGHIJKLMNOPQRSTUVWXYZabcdefghijklmnopqrstuvwxyz0123456789-_".toList

/-- Character of the URL-safe alphabet at a 6-bit index. -/
def b64Char (i : Nat) : Char := b64Alphabet.getD i 'A'

/-- Embeds Rust `base64_encode` = `base64::encode_config(payload, URL_SAFE_NO_PAD)`:
unpadded URL-safe base64.  Groups of three bytes become four alphabet
characters; a final group of one byte becomes two characters and a final
group of two bytes becomes three characters; no `=` padding is emitted. -/
def base64_encode : List Nat → List Char
  | [] => []
  | [b1] => [b64Char (b1 / 4 % 64), b64Char (b1 % 4 * 16)]
  | [b1, b2] =>
      [b64Char (b1 / 4 % 64), b64Char (b1 % 4 * 16 + b2 / 16), b64Char (b2 % 16 * 4)]
  | b1 :: b2 :: b3 :: rest =>
      b64Char (b1 / 4 % 64) :: b64Char (b1 % 4 * 16 + b2 / 16) ::
        b64Char (b2 % 16 * 4 + b3 / 64) :: b64Char (b3 % 64) :: base64_encode rest

/-- Bytes of an ASCII string (Rust `str::as_bytes`; every string the program
builds is ASCII, so one char is one byte). -/
def strBytes (s : List Char) : List Nat := s.map Char.toNat

/-- Embeds Rust `jws.split(".")`: splits a character list at every `'.'`,
keeping empty segments, as `str::split` does. -/
def splitDot : List Char → List (List Char)
  | [] => [[]]
  | c :: rest =>
      if c = '.' then [] :: splitDot rest
      else
        match splitDot rest with
        | [] => [[c]]
        | p :: ps => (c :: p) :: ps

/-- Typed error kinds of the signer.  The Rust code reports `curveMismatch`
as the `anyhow` error "The underlying elliptic curve must be P-521 to sign
using ES512.".  `oversizedScalar` is the spec's `OversizedScalar` error
kind; the source contains no code path that produces it — it is declared
here so that the spec's claim about it can be stated and compared with what
the code actually does. -/
inductive SigError
  | curveMismatch
  | oversizedScalar
deriving DecidableEq, Repr

/-- Outcome of running the signer (or the whole pipeline): a returned value,
a returned typed error (`Result::Err`), or abnormal termination.  `crash`
models the Rust `usize` underflow in `66 - r.len()` / `66 - s.len()`, which
panics (debug) or makes `iter::repeat(0).take(..)` astronomically long
(release); in neither build does the function return. -/
inductive SignOutcome
  | ok (value : List Char)
  | err (e : SigError)
  | crash
deriving DecidableEq, Repr

/-- Cryptographic operations `sign_es512` can perform, recorded in order as
an explicit trace: the SHA-512 hash of the payload and the ECDSA signing
call. -/
inductive CryptoOp
  | sha512Hash
  | ecdsaSignOp
deriving DecidableEq, Repr

/-- OpenSSL numeric curve identifiers (`Nid`) are modelled by their numeric
values. -/
abbrev Nid := Nat

/-- `Nid::SECP521R1`, the literal curve identifier of P-521 (OpenSSL value
716). -/
def secp521r1 : Nid := 716

/-- `Nid::X9_62_PRIME256V1`, the identifier of P-256 (OpenSSL value 415),
used as a concrete wrong-curve input. -/
def prime256v1 : Nid := 415

/-- The in-memory private key as `sign_es512` sees it:
* `curve` is `pkey.group().curve_name()` (an `Option` in OpenSSL);
* `ecdsaSig` stands for OpenSSL's keyed `EcdsaSig::sign` on a digest,
  returning the big-endian magnitude byte vectors `r.to_vec()` and
  `s.to_vec()` of the two signature scalars.  It is external library code,
  so it enters the embedding as an unconstrained function packaged with the
  key. -/
structure EcKey where
  curve : Option Nid
  ecdsaSig : List Nat → List Nat × List Nat

/-- Rust `usize` subtraction `a - b`: defined only when `b ≤ a`; on
underflow the program does not produce a value (debug builds panic,
release builds wrap to a near-`2^64` iterator length). -/
def checkedSub (a b : Nat) : Option Nat :=
  if b ≤ a then some (a - b) else none

/-- The `signature_bytes` vector built by `sign_es512` from the two raw
scalar byte vectors: zero padding to 66 bytes, then `r`, then zero padding
to 66 bytes, then `s`.  `none` when either length subtraction underflows. -/
def signature_bytes (r s : List Nat) : Option (List Nat) :=
  match checkedSub 66 r.length, checkedSub 66 s.length with
  | some padR, some padS =>
      some ((List.replicate padR 0 ++ r) ++ (List.replicate padS 0 ++ s))
  | _, _ => none

/-- Embeds Rust `sign_es512(payload, pkey)`.  Returns the outcome together
with the trace of cryptographic operations performed.  The curve check
against `Nid::SECP521R1` happens first; only then is the payload hashed
with SHA-512 and the digest signed. -/
def sign_es512 (sha512 : List Nat → List Nat) (payload : List Nat) (pkey : EcKey) :
    SignOutcome × List CryptoOp :=
  if pkey.curve ≠ some secp521r1 then
    (SignOutcome.err SigError.curveMismatch, [])
  else
    match signature_bytes (pkey.ecdsaSig (sha512 payload)).1
        (pkey.ecdsaSig (sha512 payload)).2 with
    | some bytes =>
        (SignOutcome.ok (base64_encode bytes), [CryptoOp.sha512Hash, CryptoOp.ecdsaSignOp])
    | none => (SignOutcome.crash, [CryptoOp.sha512Hash, CryptoOp.ecdsaSignOp])

/-- Opening part of the serialized header JSON (`\x7b` is `{`). -/
def headerOpen : List Char := "\x7b\"alg\":\"ES512\",\"kid\":\"".toList

/-- Closing part of the serialized header JSON (`\x7d` is `}`). -/
def headerClose : List Char := "\"\x7d".toList

/-- `serde_json::to_string` of the header `json!` object built in `main`
for a given kid string.  `serde_json`'s `Value::Object` is a `BTreeMap`, so
the two keys serialize in sorted order `alg`, `kid`, identically on every
call; the serialization is this pure function of the kid. -/
def headerJson (kid : List Char) : List Char := headerOpen ++ kid ++ headerClose

/-- The `to_be_signed` string of `get_jws`:
`base64url(header-json) ++ "." ++ base64url(payload)`. -/
def to_be_signed (headerStr : List Char) (payload : List Nat) : List Char :=
  base64_encode (strBytes headerStr) ++ '.' :: base64_encode payload

/-- Embeds Rust `get_jws(jws_header, jws_payload, pkey)`.  `headerStr` is
the serialized header JSON (the same pure serialization is invoked once for
the signing input and once for the emitted segment, exactly as the Rust
calls `serde_json::to_string(&jws_header)` twice on the same value).  On
success the compact JWS `b64(header) ++ "." ++ b64(payload) ++ "." ++
signature` is returned. -/
def get_jws (sha512 : List Nat → List Nat) (headerStr : List Char) (payload : List Nat)
    (pkey : EcKey) : SignOutcome × List CryptoOp :=
  match sign_es512 sha512 (strBytes (to_be_signed headerStr payload)) pkey with
  | (SignOutcome.ok signature, ops) =>
      (SignOutcome.ok (base64_encode (strBytes headerStr) ++ '.' ::
        (base64_encode payload ++ '.' :: signature)), ops)
  | other => other

/-- The value carried by an `ok` outcome (and `[]` otherwise). -/
def okPart : SignOutcome → List Char
  | SignOutcome.ok value => value
  | _ => []

/-- Embeds the detaching step of `main`:
`format!("{}..{}", parts[0], parts[2])` after `jws.split(".")`.  The
indexing `parts[0]` / `parts[2]` (which panics out of bounds in Rust) is
rendered with `getD`; on the success path the split always has exactly
three parts, so the defaults are never used. -/
def detachedOf (jws : List Char) : List Char :=
  (splitDot jws).getD 0 [] ++ '.' :: '.' :: (splitDot jws).getD 2 []

/-- Embeds the output-producing path of `main`: build the header JSON from
the kid, obtain the compact JWS, and detach the payload segment. -/
def main_detached (sha512 : List Nat → List Nat) (kid : List Char) (body : List Nat)
    (pkey : EcKey) : SignOutcome :=
  match get_jws sha512 (headerJson kid) body pkey with
  | (SignOutcome.ok jws, _) => SignOutcome.ok (detachedOf jws)
  | (other, _) => other

/-- Big-endian value of a byte vector (how a verifier reads the two 66-byte
halves of the serialized signature back as unsigned integers). -/
def beNat (l : List Nat) : Nat := l.foldl (fun a b => a * 256 + b) 0

/-- Fuel-driven big-endian byte rendering of a natural number (most
significant byte first, no leading zero bytes, empty for zero). -/
def beBytesAux : Nat → Nat → List Nat
  | 0, _ => []
  | _ + 1, 0 => []
  | fuel + 1, m => beBytesAux fuel (m / 256) ++ [m % 256]

/-- Big-endian byte vector of a natural number, as OpenSSL's
`BigNum::to_vec` renders a signature scalar: minimal big-endian magnitude,
empty for zero. -/
def beBytes (m : Nat) : List Nat := beBytesAux m m

/-- Modelled from the spec: the ECDSA signing primitive that the source
reaches through OpenSSL's `EcdsaSig::sign`, which is not part of this
repository.  Following the spec's description (section 4.2: "Produce an
ECDSA signature over the digest using the private key"), textbook ECDSA is
taken over the prime-order scalar field `ZMod n` and the cyclic group
generated by the base point, written additively: `g` is the base point,
`xcoord` the x-coordinate-mod-n map, `d` the private scalar, `k` the nonce
and `z` the digest scalar.  The signature is `r = xcoord (k • g)`,
`s = k⁻¹ * (z + r * d)`. -/
def ecdsa_sign {n : ℕ} [Fact (Nat.Prime n)] {G : Type} [AddCommGroup G]
    [Module (ZMod n) G] (g : G) (xcoord : G → ZMod n) (d k z : ZMod n) :
    ZMod n × ZMod n :=
  let r := xcoord (k • g)
  (r, k⁻¹ * (z + r * d))

/-- Modelled from the spec: textbook ECDSA verification against public key
`q` — reject zero components, then check
`xcoord (z * s⁻¹ • g + r * s⁻¹ • q) = r`.  Verification is an explicit
non-goal of the repository (spec section 1), so it exists only in this
spec-modelled form. -/
def ecdsa_verify {n : ℕ} [Fact (Nat.Prime n)] {G : Type} [AddCommGroup G]
    [Module (ZMod n) G] (g : G) (xcoord : G → ZMod n) (q : G) (z : ZMod n)
    (sig : ZMod n × ZMod n) : Bool :=
  if sig.1 = 0 ∨ sig.2 = 0 then false
  else decide (xcoord ((z * sig.2⁻¹) • g + (sig.1 * sig.2⁻¹) • q) = sig.1)

/-- Modelled from the spec: the digest-to-scalar map a verifier applies to
the SHA-512 digest of the signing input.  The exact truncation convention
is immaterial to the round-trip statement as long as signer and verifier
use the same map; here the digest bytes are read big-endian into
`ZMod n`. -/
def digestScalar (n : ℕ) (digest : List Nat) : ZMod n := (beNat digest : ZMod n)

/-- Modelled from the spec: standard ES512 verification of a JOSE signature
byte string over a signing input (spec sections 1 and 8): the signature
must be exactly 132 bytes, its two 66-byte halves are read big-endian as
`r` and `s`, and the pair is ECDSA-verified against the digest scalar of
the SHA-512 hash of the signing input. -/
def es512_verify {n : ℕ} [Fact (Nat.Prime n)] {G : Type} [AddCommGroup G]
    [Module (ZMod n) G] (sha512 : List Nat → List Nat) (g : G)
    (xcoord : G → ZMod n) (q : G) (signingInput : List Nat)
    (sigBytes : List Nat) : Bool :=
  if sigBytes.length = 132 then
    ecdsa_verify g xcoord q (digestScalar n (sha512 signingInput))
      ((beNat (sigBytes.take 66) : ZMod n), (beNat (sigBytes.drop 66) : ZMod n))
  else false

/-! Concrete inputs used to evaluate the pipeline on closed instances. -/

/-- A stand-in for the external SHA-512 on concrete runs: a constant
one-byte digest (the embedding treats the hash as an opaque external
function, so any concrete function exercises the pipeline). -/
def shaW : List Nat → List Nat := fun _ => [2]

/-- A concrete P-521 key whose signer returns the one-byte scalar
magnitudes `r = [1]`, `s = [4]`. -/
def keyW : EcKey := ⟨some secp521r1, fun _ => ([1], [4])⟩

/-- A concrete P-521 key whose signer returns an oversized 67-byte `r`
magnitude. -/
def keyBad : EcKey := ⟨some secp521r1, fun _ => (List.replicate 67 1, [4])⟩

/-- A concrete key on the wrong curve P-256. -/
def keyP256 : EcKey := ⟨some prime256v1, fun _ => ([1], [4])⟩

/-- A one-character kid used on concrete runs. -/
def kidW : List Char := "k".toList

/-- The example kid from the spec. -/
def kidExample : List Char := "11111111-1111-1111-1111-111111111111".toList

/-- The example payload characters from the spec. -/
def helloChars : List Char := "hello".toList

/-- The example payload bytes from the spec. -/
def helloBytes : List Nat := strBytes helloChars

/-- The serialized header JSON the spec gives for the example kid
(`\x7b`/`\x7d` are the braces). -/
def headerJsonLiteral : List Char :=
  "\x7b\"alg\":\"ES512\",\"kid\":\"11111111-1111-1111-1111-111111111111\"\x7d".toList

/-- The exact signing-input literal the spec gives for the example header
and payload. -/
def expectedSigningInput : List Char :=
  "eyJhbGciOiJFUzUxMiIsImtpZCI6IjExMTExMTExLTExMTEtMTExMS0xMTExLTExMTExMTExMTExMSJ9.aGVsbG8".toList

instance fact_prime_five : Fact (Nat.Prime 5) := ⟨by norm_num⟩

/-! Helper lemmas about the encoder, the splitter, and the serializer. -/

theorem b64Char_mem (i : Nat) : b64Char i ∈ b64Alphabet := by
  unfold b64Char
  rcases Nat.lt_or_ge i b64Alphabet.length with h | h
  · rw [List.getD_eq_getElem _ _ h]
    exact List.getElem_mem h
  · rw [List.getD_eq_default _ _ h]
    decide

theorem mem_base64_alphabet {c : Char} {l : List Nat} (h : c ∈ base64_encode l) :
    c ∈ b64Alphabet := by
  induction l using base64_encode.induct with
  | case1 => simp [base64_encode] at h
  | case2 b1 =>
      unfold base64_encode at h
      simp only [List.mem_cons, List.not_mem_nil, or_false] at h
      rcases h with h | h
      all_goals rw [h]; exact b64Char_mem _
  | case3 b1 b2 =>
      unfold base64_encode at h
      simp only [List.mem_cons, List.not_mem_nil, or_false] at h
      rcases h with h | h | h
      all_goals rw [h]; exact b64Char_mem _
  | case4 b1 b2 b3 rest ih =>
      unfold base64_encode at h
      simp only [List.mem_cons] at h
      rcases h with h | h | h | h | h
      · rw [h]; exact b64Char_mem _
      · rw [h]; exact b64Char_mem _
      · rw [h]; exact b64Char_mem _
      · rw [h]; exact b64Char_mem _
      · exact ih h

theorem dot_not_mem_base64 (l : List Nat) : '.' ∉ base64_encode l := fun h =>
  absurd (mem_base64_alphabet h) (by decide)

theorem base64_encode_length (l : List Nat) :
    (base64_encode l).length = (4 * l.length + 2) / 3 := by
  induction l using base64_encode.induct with
  | case1 => rfl
  | case2 b1 => simp [base64_encode]
  | case3 b1 b2 => simp [base64_encode]
  | case4 b1 b2 b3 rest ih =>
      unfold base64_encode
      simp only [List.length_cons, ih]
      omega

theorem base64_encode_eq_nil {l : List Nat} : base64_encode l = [] ↔ l = [] := by
  cases l with
  | nil => simp [base64_encode]
  | cons b1 rest =>
      cases rest with
      | nil => simp [base64_encode]
      | cons b2 rest2 =>
          cases rest2 with
          | nil => simp [base64_encode]
          | cons b3 rest3 => simp [base64_encode]

theorem splitDot_of_not_mem {l : List Char} (h : '.' ∉ l) : splitDot l = [l] := by
  induction l with
  | nil => rfl
  | cons c rest ih =>
      have hc : c ≠ '.' := fun e => h (e ▸ List.mem_cons_self c rest)
      have hr : '.' ∉ rest := fun m => h (List.mem_cons_of_mem c m)
      unfold splitDot
      rw [if_neg hc, ih hr]

theorem splitDot_append {A R : List Char} (h : '.' ∉ A) :
    splitDot (A ++ '.' :: R) = A :: splitDot R := by
  induction A with
  | nil => simp [splitDot]
  | cons c A' ih =>
      have hc : c ≠ '.' := fun e => h (e ▸ List.mem_cons_self c A')
      have hA : '.' ∉ A' := fun m => h (List.mem_cons_of_mem c m)
      rw [List.cons_append]
      simp only [splitDot]
      rw [if_neg hc, ih hA]

theorem splitDot_jws {H P S : List Char} (hH : '.' ∉ H) (hP : '.' ∉ P)
    (hS : '.' ∉ S) :
    splitDot (H ++ '.' :: (P ++ '.' :: S)) = [H, P, S] := by
  rw [splitDot_append hH, splitDot_append hP, splitDot_of_not_mem hS]

theorem beNat_append (l : List Nat) (b : Nat) :
    beNat (l ++ [b]) = beNat l * 256 + b := by
  unfold beNat
  rw [List.foldl_append]
  rfl

theorem beNat_replicate_zero (k : Nat) (l : List Nat) :
    beNat (List.replicate k 0 ++ l) = beNat l := by
  induction k with
  | zero => rfl
  | succ k ih =>
      rw [List.replicate_succ, List.cons_append]
      show beNat (List.replicate k 0 ++ l) = beNat l
      exact ih

theorem beNat_beBytesAux (fuel : Nat) :
    ∀ m : Nat, m ≤ fuel → beNat (beBytesAux fuel m) = m := by
  induction fuel with
  | zero =>
      intro m hm
      have : m = 0 := Nat.le_zero.mp hm
      subst this
      rfl
  | succ fuel ih =>
      intro m hm
      cases m with
      | zero => rfl
      | succ m' =>
          show beNat (beBytesAux fuel ((m' + 1) / 256) ++ [(m' + 1) % 256]) = m' + 1
          have hdiv : (m' + 1) / 256 ≤ fuel := by
            have := Nat.div_lt_self (Nat.succ_pos m') (by norm_num : 1 < 256)
            omega
          rw [beNat_append, ih _ hdiv]
          omega

theorem beNat_beBytes (m : Nat) : beNat (beBytes m) = m :=
  beNat_beBytesAux m m le_rfl

theorem padded_length {r : List Nat} (hr : r.length ≤ 66) :
    (List.replicate (66 - r.length) 0 ++ r).length = 66 := by
  rw [List.length_append, List.length_replicate]
  omega

theorem signature_bytes_some {r s : List Nat} (hr : r.length ≤ 66) (hs : s.length ≤ 66) :
    signature_bytes r s =
      some ((List.replicate (66 - r.length) 0 ++ r) ++
        (List.replicate (66 - s.length) 0 ++ s)) := by
  unfold signature_bytes checkedSub
  rw [if_pos hr, if_pos hs]

theorem signature_bytes_ok_inv {r s bytes : List Nat}
    (h : signature_bytes r s = some bytes) :
    r.length ≤ 66 ∧ s.length ≤ 66 ∧
      bytes = (List.replicate (66 - r.length) 0 ++ r) ++
        (List.replicate (66 - s.length) 0 ++ s) := by
  unfold signature_bytes checkedSub at h
  by_cases hr : r.length ≤ 66
  · by_cases hs : s.length ≤ 66
    · rw [if_pos hr, if_pos hs] at h
      exact ⟨hr, hs, (Option.some_injective _ h).symm⟩
    · rw [if_pos hr, if_neg hs] at h
      cases h
  · rw [if_neg hr] at h
    cases h

theorem signature_bytes_none {r s : List Nat}
    (h : 66 < r.length ∨ 66 < s.length) : signature_bytes r s = none := by
  unfold signature_bytes checkedSub
  rcases h with h | h
  · rw [if_neg (by omega)]
  · by_cases hr : r.length ≤ 66
    · rw [if_pos hr, if_neg (by omega)]
    · rw [if_neg hr, if_neg (by omega)]

theorem signature_bytes_length {r s bytes : List Nat}
    (h : signature_bytes r s = some bytes) : bytes.length = 132 := by
  obtain ⟨hr, hs, hb⟩ := signature_bytes_ok_inv h
  rw [hb, List.length_append, padded_length hr, padded_length hs]

/-! Inversion and success lemmas for the signer and the assembler. -/

theorem sign_es512_ok {sha512 : List Nat → List Nat} {payload : List Nat}
    {pkey : EcKey} {bytes : List Nat}
    (hc : pkey.curve = some secp521r1)
    (hb : signature_bytes (pkey.ecdsaSig (sha512 payload)).1
      (pkey.ecdsaSig (sha512 payload)).2 = some bytes) :
    sign_es512 sha512 payload pkey =
      (SignOutcome.ok (base64_encode bytes),
        [CryptoOp.sha512Hash, CryptoOp.ecdsaSignOp]) := by
  unfold sign_es512
  rw [if_neg (fun hne => hne hc), hb]

theorem sign_es512_crash {sha512 : List Nat → List Nat} {payload : List Nat}
    {pkey : EcKey}
    (hc : pkey.curve = some secp521r1)
    (hb : signature_bytes (pkey.ecdsaSig (sha512 payload)).1
      (pkey.ecdsaSig (sha512 payload)).2 = none) :
    sign_es512 sha512 payload pkey =
      (SignOutcome.crash, [CryptoOp.sha512Hash, CryptoOp.ecdsaSignOp]) := by
  unfold sign_es512
  rw [if_neg (fun hne => hne hc), hb]

theorem sign_es512_ok_inv {sha512 : List Nat → List Nat} {payload : List Nat}
    {pkey : EcKey} {sig : List Char} {ops : List CryptoOp}
    (h : sign_es512 sha512 payload pkey = (SignOutcome.ok sig, ops)) :
    pkey.curve = some secp521r1 ∧
      ∃ bytes, signature_bytes (pkey.ecdsaSig (sha512 payload)).1
          (pkey.ecdsaSig (sha512 payload)).2 = some bytes ∧
        sig = base64_encode bytes ∧
        ops = [CryptoOp.sha512Hash, CryptoOp.ecdsaSignOp] := by
  unfold sign_es512 at h
  by_cases hc : pkey.curve = some secp521r1
  · rw [if_neg (fun hne => hne hc)] at h
    cases hb : signature_bytes (pkey.ecdsaSig (sha512 payload)).1
        (pkey.ecdsaSig (sha512 payload)).2 with
    | none => rw [hb] at h; simp at h
    | some bytes =>
        rw [hb] at h
        injection h with h1 h2
        injection h1 with h1
        exact ⟨hc, bytes, rfl, h1.symm, h2.symm⟩
  · rw [if_pos hc] at h
    simp at h

theorem get_jws_ok {sha512 : List Nat → List Nat} {headerStr : List Char}
    {payload : List Nat} {pkey : EcKey} {sig : List Char} {ops : List CryptoOp}
    (h : sign_es512 sha512 (strBytes (to_be_signed headerStr payload)) pkey =
      (SignOutcome.ok sig, ops)) :
    get_jws sha512 headerStr payload pkey =
      (SignOutcome.ok (base64_encode (strBytes headerStr) ++ '.' ::
        (base64_encode payload ++ '.' :: sig)), ops) := by
  unfold get_jws
  rw [h]

theorem get_jws_ok_inv {sha512 : List Nat → List Nat} {headerStr : List Char}
    {payload : List Nat} {pkey : EcKey} {jws : List Char} {ops : List CryptoOp}
    (h : get_jws sha512 headerStr payload pkey = (SignOutcome.ok jws, ops)) :
    ∃ sig, sign_es512 sha512 (strBytes (to_be_signed headerStr payload)) pkey =
        (SignOutcome.ok sig, ops) ∧
      jws = base64_encode (strBytes headerStr) ++ '.' ::
        (base64_encode payload ++ '.' :: sig) := by
  unfold get_jws at h
  cases hs : sign_es512 sha512 (strBytes (to_be_signed headerStr payload)) pkey with
  | mk outcome t =>
      rw [hs] at h
      cases outcome with
      | ok sig =>
          injection h with h1 h2
          injection h1 with h1
          subst h2
          exact ⟨sig, rfl, h1.symm⟩
      | err e => simp at h
      | crash => simp at h

theorem get_jws_ok_split {sha512 : List Nat → List Nat} {headerStr : List Char}
    {payload : List Nat} {pkey : EcKey} {jws : List Char} {ops : List CryptoOp}
    (h : get_jws sha512 headerStr payload pkey = (SignOutcome.ok jws, ops)) :
    ∃ sig, '.' ∉ sig ∧ sig ≠ [] ∧
      jws = base64_encode (strBytes headerStr) ++ '.' ::
        (base64_encode payload ++ '.' :: sig) ∧
      splitDot jws = [base64_encode (strBytes headerStr), base64_encode payload, sig] := by
  obtain ⟨sig, hs, hjws⟩ := get_jws_ok_inv h
  obtain ⟨hc, bytes, hb, hsigeq, hops⟩ := sign_es512_ok_inv hs
  have hdot : '.' ∉ sig := by
    rw [hsigeq]
    exact dot_not_mem_base64 bytes
  have hlen : bytes.length = 132 := signature_bytes_length hb
  have hnil : sig ≠ [] := by
    rw [hsigeq]
    intro e
    rw [base64_encode_eq_nil] at e
    rw [e] at hlen
    simp at hlen
  refine ⟨sig, hdot, hnil, hjws, ?_⟩
  rw [hjws]
  exact splitDot_jws (dot_not_mem_base64 _) (dot_not_mem_base64 _) hdot

/-! Correctness of the spec-modelled ECDSA primitive. -/

theorem ecdsa_sign_verify {n : ℕ} [Fact (Nat.Prime n)] {G : Type} [AddCommGroup G]
    [Module (ZMod n) G] (g : G) (xcoord : G → ZMod n) (d k z : ZMod n)
    (hr : (ecdsa_sign g xcoord d k z).1 ≠ 0)
    (hs : (ecdsa_sign g xcoord d k z).2 ≠ 0) :
    ecdsa_verify g xcoord (d • g) z (ecdsa_sign g xcoord d k z) = true := by
  have hk : k ≠ 0 := by
    intro h0
    apply hs
    show k⁻¹ * (z + xcoord (k • g) * d) = 0
    rw [h0, inv_zero, zero_mul]
  have hs' : k⁻¹ * (z + xcoord (k • g) * d) ≠ 0 := hs
  have hw : z + xcoord (k • g) * d ≠ 0 := by
    intro h0
    exact hs' (by rw [h0, mul_zero])
  unfold ecdsa_verify
  rw [if_neg (fun hor => hor.elim (fun h0 => hr h0) (fun h0 => hs h0))]
  rw [decide_eq_true_eq]
  show xcoord ((z * (k⁻¹ * (z + xcoord (k • g) * d))⁻¹) • g +
      (xcoord (k • g) * (k⁻¹ * (z + xcoord (k • g) * d))⁻¹) • (d • g)) = xcoord (k • g)
  have hsinv : (k⁻¹ * (z + xcoord (k • g) * d))⁻¹ =
      (z + xcoord (k • g) * d)⁻¹ * k := by
    rw [mul_inv_rev, inv_inv]
  rw [hsinv, smul_smul, ← add_smul]
  have hcoef : z * ((z + xcoord (k • g) * d)⁻¹ * k) +
      xcoord (k • g) * ((z + xcoord (k • g) * d)⁻¹ * k) * d = k := by
    field_simp
    ring
  rw [hcoef]

/-! Claim theorems. -/

/-- Claim C1: for every private key on curve P-521 and every byte payload,
the signature produced by `sign_es512` over the signing input, when checked
with standard ES512 verification using the corresponding public key `d • g`
against that same signing input, verifies successfully.  The ECDSA
primitive and the verifier are spec-modelled (they live in OpenSSL /
outside the repository): the key's signing function is assumed to return
the big-endian magnitudes of a textbook ECDSA signature `(r, s)` with
nonzero components (OpenSSL resamples the nonce until both are nonzero)
over the digest scalar of the payload's SHA-512 hash; the P-521 group
order is abstracted to any prime `n` whose scalar magnitudes fit the
66-byte budget. -/
theorem sign_es512_roundtrip {n : ℕ} [Fact (Nat.Prime n)] {G : Type}
    [AddCommGroup G] [Module (ZMod n) G] (sha512 : List Nat → List Nat)
    (g : G) (xcoord : G → ZMod n) (d k : ZMod n) (pkey : EcKey)
    (payload : List Nat) (r s : ZMod n)
    (hsig : ecdsa_sign g xcoord d k (digestScalar n (sha512 payload)) = (r, s))
    (hr : r ≠ 0) (hs : s ≠ 0)
    (hkey : pkey.curve = some secp521r1)
    (hecdsa : pkey.ecdsaSig (sha512 payload) = (beBytes r.val, beBytes s.val))
    (hrlen : (beBytes r.val).length ≤ 66)
    (hslen : (beBytes s.val).length ≤ 66) :
    ∃ sigBytes,
      (sign_es512 sha512 payload pkey).1 = SignOutcome.ok (base64_encode sigBytes) ∧
        es512_verify sha512 g xcoord (d • g) payload sigBytes = true := by
  haveI : NeZero n := ⟨(Fact.out (p := Nat.Prime n)).pos.ne'⟩
  refine ⟨(List.replicate (66 - (beBytes r.val).length) 0 ++ beBytes r.val) ++
    (List.replicate (66 - (beBytes s.val).length) 0 ++ beBytes s.val), ?_, ?_⟩
  · have hb : signature_bytes (pkey.ecdsaSig (sha512 payload)).1
        (pkey.ecdsaSig (sha512 payload)).2 =
        some ((List.replicate (66 - (beBytes r.val).length) 0 ++ beBytes r.val) ++
          (List.replicate (66 - (beBytes s.val).length) 0 ++ beBytes s.val)) := by
      rw [hecdsa]
      exact signature_bytes_some hrlen hslen
    rw [sign_es512_ok hkey hb]
  · have hlen : ((List.replicate (66 - (beBytes r.val).length) 0 ++ beBytes r.val) ++
        (List.replicate (66 - (beBytes s.val).length) 0 ++ beBytes s.val)).length =
        132 := by
      rw [List.length_append, padded_length hrlen, padded_length hslen]
    have htake : ((List.replicate (66 - (beBytes r.val).length) 0 ++ beBytes r.val) ++
        (List.replicate (66 - (beBytes s.val).length) 0 ++ beBytes s.val)).take 66 =
        List.replicate (66 - (beBytes r.val).length) 0 ++ beBytes r.val :=
      List.take_left' (padded_length hrlen)
    have hdrop : ((List.replicate (66 - (beBytes r.val).length) 0 ++ beBytes r.val) ++
        (List.replicate (66 - (beBytes s.val).length) 0 ++ beBytes s.val)).drop 66 =
        List.replicate (66 - (beBytes s.val).length) 0 ++ beBytes s.val :=
      List.drop_left' (padded_length hrlen)
    unfold es512_verify
    rw [if_pos hlen, htake, hdrop, beNat_replicate_zero, beNat_replicate_zero,
      beNat_beBytes, beNat_beBytes]
    have hrcast : ((r.val : ℕ) : ZMod n) = r := ZMod.natCast_rightInverse r
    have hscast : ((s.val : ℕ) : ZMod n) = s := ZMod.natCast_rightInverse s
    rw [hrcast, hscast, ← hsig]
    exact ecdsa_sign_verify g xcoord d k (digestScalar n (sha512 payload))
      (by rw [hsig]; exact hr) (by rw [hsig]; exact hs)

theorem sign_es512_roundtrip_witness :
    (ecdsa_sign (n := 5) (G := ZMod 5) 1 id 2 1 (digestScalar 5 (shaW [])) = (1, 4) ∧
      (1 : ZMod 5) ≠ 0 ∧ (4 : ZMod 5) ≠ 0 ∧
      keyW.curve = some secp521r1 ∧
      keyW.ecdsaSig (shaW []) = (beBytes (1 : ZMod 5).val, beBytes (4 : ZMod 5).val) ∧
      (beBytes (1 : ZMod 5).val).length ≤ 66 ∧
      (beBytes (4 : ZMod 5).val).length ≤ 66) ∧
    ∃ sigBytes,
      (sign_es512 shaW [] keyW).1 = SignOutcome.ok (base64_encode sigBytes) ∧
        es512_verify shaW (1 : ZMod 5) id ((2 : ZMod 5) • (1 : ZMod 5)) [] sigBytes =
          true := by
  have hsig : ecdsa_sign (n := 5) (G := ZMod 5) 1 id 2 1 (digestScalar 5 (shaW [])) =
      (1, 4) := by
    unfold ecdsa_sign digestScalar shaW
    simp only [smul_eq_mul, inv_one, id_eq]
    decide
  exact ⟨⟨hsig, by decide, by decide, rfl, by decide, by decide, by decide⟩,
    sign_es512_roundtrip shaW 1 id 2 1 keyW [] 1 4 hsig (by decide) (by decide) rfl
      (by decide) (by decide) (by decide)⟩

/-- Claim C2: for every valid P-521 private key (whose signature components
`r` and `s` each fit in at most 66 bytes as unsigned big-endian magnitudes)
and every payload, including the empty payload, the signature byte string
`sign_es512` builds before base64url encoding is exactly 132 bytes: `r`
left-padded with zero bytes to exactly 66 bytes, followed by `s`
left-padded with zero bytes to exactly 66 bytes. -/
theorem sign_es512_fixed_width (sha512 : List Nat → List Nat) (payload : List Nat)
    (pkey : EcKey) (r s : List Nat)
    (hcurve : pkey.curve = some secp521r1)
    (hrs : pkey.ecdsaSig (sha512 payload) = (r, s))
    (hr : r.length ≤ 66) (hs : s.length ≤ 66) :
    ∃ bytes, signature_bytes r s = some bytes ∧ bytes.length = 132 ∧
      bytes.take 66 = List.replicate (66 - r.length) 0 ++ r ∧
      bytes.drop 66 = List.replicate (66 - s.length) 0 ++ s ∧
      (sign_es512 sha512 payload pkey).1 = SignOutcome.ok (base64_encode bytes) := by
  refine ⟨(List.replicate (66 - r.length) 0 ++ r) ++
      (List.replicate (66 - s.length) 0 ++ s),
    signature_bytes_some hr hs, ?_, List.take_left' (padded_length hr),
    List.drop_left' (padded_length hr), ?_⟩
  · rw [List.length_append, padded_length hr, padded_length hs]
  · have hb : signature_bytes (pkey.ecdsaSig (sha512 payload)).1
        (pkey.ecdsaSig (sha512 payload)).2 =
        some ((List.replicate (66 - r.length) 0 ++ r) ++
          (List.replicate (66 - s.length) 0 ++ s)) := by
      rw [hrs]
      exact signature_bytes_some hr hs
    rw [sign_es512_ok hcurve hb]

theorem sign_es512_fixed_width_witness :
    (keyW.curve = some secp521r1 ∧ keyW.ecdsaSig (shaW []) = ([1], [4]) ∧
      ([1] : List Nat).length ≤ 66 ∧ ([4] : List Nat).length ≤ 66) ∧
    ∃ bytes, signature_bytes [1] [4] = some bytes ∧ bytes.length = 132 ∧
      bytes.take 66 = List.replicate (66 - ([1] : List Nat).length) 0 ++ [1] ∧
      bytes.drop 66 = List.replicate (66 - ([4] : List Nat).length) 0 ++ [4] ∧
      (sign_es512 shaW [] keyW).1 = SignOutcome.ok (base64_encode bytes) :=
  ⟨⟨rfl, rfl, by decide, by decide⟩,
    sign_es512_fixed_width shaW [] keyW [1] [4] rfl rfl (by decide) (by decide)⟩

/-- Claim C3 is refuted on the code: with a 67-byte `r` magnitude,
`sign_es512` does not fail with a typed `OversizedScalar` error — there is
no oversized-scalar check in the source; the `66 - r.len()` subtraction
underflows and the run aborts instead of returning a typed error. -/
theorem sign_es512_oversized_counterexample :
    (sign_es512 shaW [] keyBad).1 = SignOutcome.crash ∧
      (sign_es512 shaW [] keyBad).1 ≠ SignOutcome.err SigError.oversizedScalar :=
  ⟨by decide, by decide⟩

/-- Claim C3 (amended): if either scalar magnitude exceeds 66 bytes,
`sign_es512` does not return a typed error at all: the `usize` padding
subtraction underflows and the process aborts (panic in debug builds, an
absurd iterator length in release builds). -/
theorem sign_es512_oversized_crash (sha512 : List Nat → List Nat)
    (payload : List Nat) (pkey : EcKey)
    (hcurve : pkey.curve = some secp521r1)
    (hover : 66 < (pkey.ecdsaSig (sha512 payload)).1.length ∨
      66 < (pkey.ecdsaSig (sha512 payload)).2.length) :
    sign_es512 sha512 payload pkey =
      (SignOutcome.crash, [CryptoOp.sha512Hash, CryptoOp.ecdsaSignOp]) :=
  sign_es512_crash hcurve (signature_bytes_none hover)

theorem sign_es512_oversized_crash_witness :
    (keyBad.curve = some secp521r1 ∧
      (66 < (keyBad.ecdsaSig (shaW [])).1.length ∨
        66 < (keyBad.ecdsaSig (shaW [])).2.length)) ∧
    sign_es512 shaW [] keyBad =
      (SignOutcome.crash, [CryptoOp.sha512Hash, CryptoOp.ecdsaSignOp]) :=
  ⟨⟨rfl, by decide⟩, sign_es512_oversized_crash shaW [] keyBad rfl (by decide)⟩

/-- Claim C4: for every key whose curve is not P-521 and every payload,
`sign_es512` returns a `CurveMismatch` error before performing any
cryptographic operation — the trace of performed crypto operations is
empty, so no hashing and no ECDSA signing occurs — and produces no
signature output. -/
theorem sign_es512_curve_mismatch (sha512 : List Nat → List Nat)
    (payload : List Nat) (pkey : EcKey)
    (h : pkey.curve ≠ some secp521r1) :
    sign_es512 sha512 payload pkey = (SignOutcome.err SigError.curveMismatch, []) := by
  unfold sign_es512
  rw [if_pos h]

theorem sign_es512_curve_mismatch_witness :
    keyP256.curve ≠ some secp521r1 ∧
      sign_es512 shaW [] keyP256 = (SignOutcome.err SigError.curveMismatch, []) :=
  ⟨by decide, sign_es512_curve_mismatch shaW [] keyP256 (by decide)⟩

/-- Claim C5: whenever the pipeline succeeds, the emitted detached JWS has
the form `A..B` where `A` is the non-empty base64url header segment
(part 0 of the compact JWS split on `'.'`), `B` is the non-empty base64url
signature segment (part 2), and the middle segment between the two
consecutive dots is exactly empty. -/
theorem main_detached_form (sha512 : List Nat → List Nat) (kid : List Char)
    (body : List Nat) (pkey : EcKey) (out : List Char)
    (h : main_detached sha512 kid body pkey = SignOutcome.ok out) :
    ∃ A B, out = A ++ '.' :: '.' :: B ∧ A ≠ [] ∧ B ≠ [] ∧
      splitDot out = [A, [], B] ∧
      A = base64_encode (strBytes (headerJson kid)) := by
  unfold main_detached at h
  cases hj : get_jws sha512 (headerJson kid) body pkey with
  | mk outcome t =>
      rw [hj] at h
      cases outcome with
      | ok jws =>
          injection h with h1
          obtain ⟨sig, hdot, hnil, hjws, hsplit⟩ := get_jws_ok_split hj
          have hHdot : '.' ∉ base64_encode (strBytes (headerJson kid)) :=
            dot_not_mem_base64 _
          have hHnil : base64_encode (strBytes (headerJson kid)) ≠ [] := by
            intro e
            rw [base64_encode_eq_nil] at e
            unfold strBytes at e
            rw [List.map_eq_nil_iff] at e
            unfold headerJson headerOpen at e
            simp at e
          have hdet : detachedOf jws =
              base64_encode (strBytes (headerJson kid)) ++ '.' :: '.' :: sig := by
            unfold detachedOf
            rw [hsplit]
            rfl
          refine ⟨base64_encode (strBytes (headerJson kid)), sig, ?_, hHnil, hnil,
            ?_, rfl⟩
          · rw [← h1, hdet]
          · rw [← h1, hdet, splitDot_append hHdot]
            simp only [splitDot]
            rw [if_pos trivial, splitDot_of_not_mem hdot]
      | err e => simp at h
      | crash => simp at h

theorem main_detached_form_witness :
    main_detached shaW kidW [] keyW =
      SignOutcome.ok (okPart (main_detached shaW kidW [] keyW)) ∧
    ∃ A B, okPart (main_detached shaW kidW [] keyW) = A ++ '.' :: '.' :: B ∧
      A ≠ [] ∧ B ≠ [] ∧
      splitDot (okPart (main_detached shaW kidW [] keyW)) = [A, [], B] ∧
      A = base64_encode (strBytes (headerJson kidW)) :=
  ⟨rfl, main_detached_form shaW kidW [] keyW _ rfl⟩

/-- Claim C6: `base64_encode` is a total pure function (it is defined on
every byte sequence), and for every input `x` its output uses only the
URL-safe base64 alphabet: it never contains `'+'`, `'/'`, or `'='`. -/
theorem base64_encode_urlsafe (x : List Nat) (c : Char) (h : c ∈ base64_encode x) :
    c ∈ b64Alphabet ∧ c ≠ '+' ∧ c ≠ '/' ∧ c ≠ '=' := by
  have hm := mem_base64_alphabet h
  refine ⟨hm, ?_, ?_, ?_⟩
  all_goals intro e; rw [e] at hm; revert hm; decide

theorem base64_encode_urlsafe_witness :
    'a' ∈ base64_encode [104] ∧
      ('a' ∈ b64Alphabet ∧ 'a' ≠ '+' ∧ 'a' ≠ '/' ∧ 'a' ≠ '=') :=
  ⟨by decide, base64_encode_urlsafe [104] 'a' (by decide)⟩

/-- Claim C7: for the header with alg `ES512` and the example kid, and
payload `hello`, the header serializes to the literal JSON of the spec and
the signing input computed by `get_jws` is exactly the spec's literal
`eyJhbGciOiJFUzUxMiIsImtpZCI6IjExMTExMTExLTExMTEtMTExMS0xMTExLTExMTExMTEx
MTExMSJ9.aGVsbG8`. -/
theorem signing_input_example :
    headerJson kidExample = headerJsonLiteral ∧
      to_be_signed (headerJson kidExample) helloBytes = expectedSigningInput := by
  exact ⟨by decide, by decide⟩

/-- Claim C8: for every header value, payload, and key, the header segment
`get_jws` uses when computing the signing input (part 0 of `to_be_signed`)
is byte-for-byte identical to the header segment it emits as part 0 of the
final compact JWS, even though the header serialization is invoked twice;
both equal `base64_encode` of the serialized header bytes. -/
theorem get_jws_header_consistent (sha512 : List Nat → List Nat)
    (headerStr : List Char) (payload : List Nat) (pkey : EcKey)
    (jws : List Char) (ops : List CryptoOp)
    (h : get_jws sha512 headerStr payload pkey = (SignOutcome.ok jws, ops)) :
    (splitDot jws).getD 0 [] =
        (splitDot (to_be_signed headerStr payload)).getD 0 [] ∧
      (splitDot jws).getD 0 [] = base64_encode (strBytes headerStr) := by
  obtain ⟨sig, hdot, hnil, hjws, hsplit⟩ := get_jws_ok_split h
  have htbs : splitDot (to_be_signed headerStr payload) =
      [base64_encode (strBytes headerStr), base64_encode payload] := by
    unfold to_be_signed
    rw [splitDot_append (dot_not_mem_base64 _),
      splitDot_of_not_mem (dot_not_mem_base64 _)]
  rw [hsplit, htbs]
  exact ⟨rfl, rfl⟩

theorem get_jws_header_consistent_witness :
    get_jws shaW kidW [] keyW =
      (SignOutcome.ok (okPart (get_jws shaW kidW [] keyW).1),
        [CryptoOp.sha512Hash, CryptoOp.ecdsaSignOp]) ∧
    ((splitDot (okPart (get_jws shaW kidW [] keyW).1)).getD 0 [] =
        (splitDot (to_be_signed kidW [])).getD 0 [] ∧
      (splitDot (okPart (get_jws shaW kidW [] keyW).1)).getD 0 [] =
        base64_encode (strBytes kidW)) :=
  ⟨rfl, get_jws_header_consistent shaW kidW [] keyW _ _ rfl⟩

/-- Claim C9: for every header, payload, and key for which `get_jws`
succeeds, the returned compact JWS contains exactly two `'.'` characters,
so splitting it on `'.'` yields exactly three parts (making the accesses to
parts 0 and 2 in `main` in bounds). -/
theorem get_jws_three_parts (sha512 : List Nat → List Nat) (headerStr : List Char)
    (payload : List Nat) (pkey : EcKey) (jws : List Char) (ops : List CryptoOp)
    (h : get_jws sha512 headerStr payload pkey = (SignOutcome.ok jws, ops)) :
    List.count '.' jws = 2 ∧
      ∃ sig, splitDot jws =
        [base64_encode (strBytes headerStr), base64_encode payload, sig] := by
  obtain ⟨sig, hdot, hnil, hjws, hsplit⟩ := get_jws_ok_split h
  refine ⟨?_, sig, hsplit⟩
  rw [hjws, List.count_append, List.count_eq_zero.mpr (dot_not_mem_base64 _),
    List.count_cons_self, List.count_append,
    List.count_eq_zero.mpr (dot_not_mem_base64 _), List.count_cons_self,
    List.count_eq_zero.mpr hdot]

theorem get_jws_three_parts_witness :
    get_jws shaW kidW [] keyW =
      (SignOutcome.ok (okPart (get_jws shaW kidW [] keyW).1),
        [CryptoOp.sha512Hash, CryptoOp.ecdsaSignOp]) ∧
    (List.count '.' (okPart (get_jws shaW kidW [] keyW).1) = 2 ∧
      ∃ sig, splitDot (okPart (get_jws shaW kidW [] keyW).1) =
        [base64_encode (strBytes kidW), base64_encode ([] : List Nat), sig]) :=
  ⟨rfl, get_jws_three_parts shaW kidW [] keyW _ _ rfl⟩

/-- Claim C10: whenever `sign_es512` succeeds on a valid P-521 key, the
signature string it returns is exactly 176 characters long: the 132
signature bytes encode to `132 / 3 * 4 = 176` characters with no padding
to strip. -/
theorem sign_es512_sig_length (sha512 : List Nat → List Nat) (payload : List Nat)
    (pkey : EcKey) (sig : List Char) (ops : List CryptoOp)
    (h : sign_es512 sha512 payload pkey = (SignOutcome.ok sig, ops)) :
    sig.length = 176 := by
  obtain ⟨hc, bytes, hb, hsigeq, hops⟩ := sign_es512_ok_inv h
  rw [hsigeq, base64_encode_length, signature_bytes_length hb]

theorem sign_es512_sig_length_witness :
    sign_es512 shaW [] keyW =
      (SignOutcome.ok (okPart (sign_es512 shaW [] keyW).1),
        [CryptoOp.sha512Hash, CryptoOp.ecdsaSignOp]) ∧
      (okPart (sign_es512 shaW [] keyW).1).length = 176 :=
  ⟨rfl, sign_es512_sig_length shaW [] keyW _ _ rfl⟩

end Tlsign
